import Mathlib

/-!
# Verification of the eBird alert scraper (scraper/scrape.py)

A shallow embedding of `scraper/scrape.py`.  HTML documents are modelled as
trees of element/text nodes, mirroring what `BeautifulSoup(html, "html.parser")`
produces; the BeautifulSoup search operations used by the code (`find`,
`find_all`, `find_parent`, `.string`, `get_text(strip=True)`, attribute
lookup) are modelled directly on those trees.  The external `json` library is
modelled abstractly: functions that call `json.loads` on embedded script
payloads take a parameter `jp : String → Option JValue` (`none` models a
`json.JSONDecodeError`).  The `json.dump`/`json.loads` round trip used for the
emitted `data.json` is modelled concretely by `dumpJson`/`parseJson` below,
which follow CPython's `json.dump(..., indent=2, ensure_ascii=False)` output
format.

Modelling notes, checked against the sources of the external collaborators:
* a bs4 `Tag` is always truthy (`Tag.__bool__` returns `True`), so Python
  `x or y` on `find` results picks the first non-`None` result, and
  `if tag:` is a not-`None` test;
* the `class` attribute is kept as its serialised text (bs4 matches a callable
  `class_` filter against each token and against the space-joined string; for
  the space-free substrings used here the two coincide);
* bs4 `Tag.__eq__` is structural (same name, attributes and contents), which
  is the equality used by `parent not in obs_rows`;
* `json.loads(None)` raises a `TypeError`, which the per-block
  `except (json.JSONDecodeError, AttributeError)` does not catch; an uncaught
  Python exception is modelled by `Except.error`;
* Python `str.strip`/`str.lower` are modelled on ASCII data by
  `pyStrip`/`pyLower`.
-/

namespace Scraper

/-! ## Python string primitives (over explicit character lists) -/

/-- Whitespace characters recognised by Python's `str.strip`. -/
def isSpaceChar (c : Char) : Bool :=
  c = ' ' || c = '\t' || c = '\n' || c = '\r' || c = '\x0b' || c = '\x0c'

/-- Strip whitespace from both ends of a character list (Python `str.strip`). -/
def trimChars (l : List Char) : List Char :=
  ((l.dropWhile isSpaceChar).reverse.dropWhile isSpaceChar).reverse

/-- Python `str.strip()`. -/
def pyStrip (s : String) : String := String.mk (trimChars s.toList)

/-- ASCII lower-casing of one character. -/
def lowerChar (c : Char) : Char :=
  if 'A' ≤ c && c ≤ 'Z' then Char.ofNat (c.toNat + 32) else c

/-- Python `str.lower()` (ASCII). -/
def pyLower (s : String) : String := String.mk (s.toList.map lowerChar)

/-- `needle` is a prefix of `hay`. -/
def charsStart : List Char → List Char → Bool
  | [], _ => true
  | _ :: _, [] => false
  | n :: ns, h :: hs => n = h && charsStart ns hs

/-- `needle` occurs as a contiguous substring of `hay`. -/
def charsHasSub (needle : List Char) : List Char → Bool
  | [] => charsStart needle []
  | h :: hs => charsStart needle (h :: hs) || charsHasSub needle hs

/-- Python `needle in hay` on strings. -/
def pyIn (needle hay : String) : Bool := charsHasSub needle.toList hay.toList

/-- Python `hay.startswith(pre)`. -/
def pyStarts (hay pre : String) : Bool := charsStart pre.toList hay.toList

/-! ## The parsed HTML document

`Node` models the tree produced by `BeautifulSoup(html, "html.parser")`:
an element carries its tag name, its attributes (the `class` attribute as its
serialised text) and its children; a text node carries a `NavigableString`. -/

inductive Node where
  | text (s : String)
  | elem (tag : String) (attrs : List (String × String)) (children : List Node)

mutual

def Node.beq : Node → Node → Bool
  | .text s, .text t => s == t
  | .elem t1 a1 c1, .elem t2 a2 c2 => t1 == t2 && a1 == a2 && beqNodeList c1 c2
  | _, _ => false

def beqNodeList : List Node → List Node → Bool
  | [], [] => true
  | a :: as, b :: bs => Node.beq a b && beqNodeList as bs
  | _, _ => false

end

/-- bs4 `Tag.__eq__` is structural, so structural equality is the equality
used by `parent not in obs_rows`. -/
instance : BEq Node := ⟨Node.beq⟩

/-- The tag name of an element (text nodes have no name). -/
def Node.tag : Node → String
  | .text _ => ""
  | .elem t _ _ => t

/-- Attribute lookup, `tag.get(k)`; `html.parser` keeps the first duplicate. -/
def Node.attr : Node → String → Option String
  | .text _, _ => none
  | .elem _ attrs _, k => attrs.lookup k

mutual

/-- All descendants of a node in document (pre)order, the search space of
bs4 `find_all` (the node itself is not a descendant). -/
def Node.descendants : Node → List Node
  | .text _ => []
  | .elem _ _ cs => descList cs

def descList : List Node → List Node
  | [] => []
  | c :: cs => c :: c.descendants ++ descList cs

end

mutual

/-- bs4 `get_text(strip=True)`: every descendant string, stripped,
concatenated in document order. -/
def Node.getText : Node → String
  | .text s => pyStrip s
  | .elem _ _ cs => getTextList cs

def getTextList : List Node → String
  | [] => ""
  | c :: cs => c.getText ++ getTextList cs

end

/-- bs4 `find_all` with an arbitrary match function. -/
def Node.findAll (n : Node) (p : Node → Bool) : List Node :=
  n.descendants.filter p

/-- bs4 `find` with an arbitrary match function (`none` models `None`). -/
def Node.findFirst (n : Node) (p : Node → Bool) : Option Node :=
  (n.findAll p).head?

/-- bs4 `Tag.string`: the string of a tag with a single child, recursively. -/
def Node.strProp : Node → Option String
  | .text s => some s
  | .elem _ _ [c] => c.strProp
  | .elem _ _ _ => none

/-! ## Python/JSON values

Values held in the sighting dictionaries.  The fragment path only ever stores
strings, but the structured-data fallback copies whatever `json.loads`
produced, so the dictionary values range over JSON values. -/

inductive JValue where
  | jnull
  | jbool (b : Bool)
  | jnum (n : Int)
  | jstr (s : String)
  | jarr (items : List JValue)
  | jobj (fields : List (String × JValue))

mutual

def JValue.beq : JValue → JValue → Bool
  | .jnull, .jnull => true
  | .jbool a, .jbool b => a == b
  | .jnum a, .jnum b => a == b
  | .jstr a, .jstr b => a == b
  | .jarr a, .jarr b => beqJList a b
  | .jobj a, .jobj b => beqJFields a b
  | _, _ => false

def beqJList : List JValue → List JValue → Bool
  | [], [] => true
  | a :: as, b :: bs => JValue.beq a b && beqJList as bs
  | _, _ => false

def beqJFields : List (String × JValue) → List (String × JValue) → Bool
  | [], [] => true
  | (k1, v1) :: as, (k2, v2) :: bs => k1 == k2 && JValue.beq v1 v2 && beqJFields as bs
  | _, _ => false

end

/-- Python equality on JSON values, as used by `"name" in item` on a list. -/
instance : BEq JValue := ⟨JValue.beq⟩

/-- Whether a value is a Python `str`. -/
def JValue.isStr : JValue → Bool
  | .jstr _ => true
  | _ => false

/-- Python truthiness of a JSON/Python value. -/
def pyTruthy : JValue → Bool
  | .jnull => false
  | .jbool b => b
  | .jnum n => n != 0
  | .jstr s => s != ""
  | .jarr l => !l.isEmpty
  | .jobj l => !l.isEmpty

/-- A sighting record: an insertion-ordered Python dict with string keys. -/
abbrev Sighting := List (String × JValue)

/-- Python `d.get(k)`: `None` when the key is absent. -/
def pyDictGet (d : Sighting) (k : String) : JValue :=
  (d.lookup k).getD .jnull

/-! ## Record Extractor (`extract_sighting_data`) -/

/-- The `class_=lambda x: x and sub in str(x).lower()` filters. -/
def classLowerHas (sub : String) (n : Node) : Bool :=
  match n.attr "class" with
  | some c => pyIn sub (pyLower c)
  | none => false

/-- The `href=lambda x: x and sub in str(x)` filters (case-sensitive). -/
def hrefHas (sub : String) (n : Node) : Bool :=
  match n.attr "href" with
  | some h => pyIn sub h
  | none => false

/-- Python `a or b` on `find` results (a found bs4 tag is always truthy). -/
def pyOrN (a b : Option Node) : Option Node :=
  match a with
  | some n => some n
  | none => b

/-- `species`: `a.class~species` or `span.class~species` or `strong` or `b`. -/
def speciesElem (el : Node) : Option Node :=
  pyOrN (el.findFirst (fun n => n.tag = "a" && classLowerHas "species" n))
    (pyOrN (el.findFirst (fun n => n.tag = "span" && classLowerHas "species" n))
      (pyOrN (el.findFirst (fun n => n.tag = "strong"))
        (el.findFirst (fun n => n.tag = "b"))))

def speciesField (el : Node) : String :=
  match speciesElem el with
  | some e => e.getText
  | none => ""

/-- `location`: any element with `class~location`, or a `/hotspot/` link. -/
def locationElem (el : Node) : Option Node :=
  pyOrN (el.findFirst (classLowerHas "location"))
    (el.findFirst (fun n => n.tag = "a" && hrefHas "/hotspot/" n))

def locationField (el : Node) : String :=
  match locationElem el with
  | some e => e.getText
  | none => ""

/-- `date`: any element with `class~date`. -/
def dateField (el : Node) : String :=
  match el.findFirst (classLowerHas "date") with
  | some e => e.getText
  | none => ""

/-- `observer`: any element with `class~observer`, or a `/profile/` link. -/
def observerElem (el : Node) : Option Node :=
  pyOrN (el.findFirst (classLowerHas "observer"))
    (el.findFirst (fun n => n.tag = "a" && hrefHas "/profile/" n))

def observerField (el : Node) : String :=
  match observerElem el with
  | some e => e.getText
  | none => ""

/-- `checklist_url`: first `a` whose `href` contains `/checklist/`; a
root-relative href is prefixed with the site's scheme and host. -/
def checklistField (el : Node) : String :=
  match el.findFirst (fun n => n.tag = "a" && hrefHas "/checklist/" n) with
  | some a =>
      let h := (a.attr "href").getD ""
      if pyStarts h "/" then "https://ebird.org" ++ h else h
  | none => ""

/-- `extract_sighting_data(element)`: the six-key sighting dict. -/
def extract_sighting_data (el : Node) : Sighting :=
  [("species", .jstr (speciesField el)),
   ("location", .jstr (locationField el)),
   ("date", .jstr (dateField el)),
   ("observer", .jstr (observerField el)),
   ("checklist_url", .jstr (checklistField el)),
   ("count", .jstr "")]

/-! ## Entry Locator (`parse_alerts`, stages 1–5)

Stage 5 (`link.find_parent(["div", "li", "tr"])`) needs the ancestors of each
link in the whole document, so the document is enumerated into positions: the
path of child indices from the root, the chain of ancestor elements
(innermost first), and the subtree at that position. -/

structure Pos where
  path : List Nat
  anc : List Node
  node : Node

mutual

def enumNode (p : List Nat) (anc : List Node) : Node → List Pos
  | .text s => [⟨p, anc, .text s⟩]
  | .elem t a cs => ⟨p, anc, .elem t a cs⟩ :: enumChildren p (.elem t a cs :: anc) 0 cs

def enumChildren (p : List Nat) (anc : List Node) (i : Nat) : List Node → List Pos
  | [] => []
  | c :: cs => enumNode (p ++ [i]) anc c ++ enumChildren p anc (i + 1) cs

end

/-- Positions of all strict descendants of the document root, in document
order. -/
def descPos : Node → List Pos
  | .text _ => []
  | .elem t a cs => enumChildren [] [.elem t a cs] 0 cs

/-- `soup.find("main") or soup` (path and node of the chosen scope). -/
def contentFallback (soup : Node) : List Nat × Node :=
  match (descPos soup).find? (fun p => p.node.tag = "main") with
  | some p => (p.path, p.node)
  | none => ([], soup)

/-- `content = soup.find("div", {"id": "content"}) or soup.find("main") or
soup`. -/
def contentPos (soup : Node) : List Nat × Node :=
  match (descPos soup).find?
      (fun p => p.node.tag = "div" && p.node.attr "id" = some "content") with
  | some p => (p.path, p.node)
  | none => contentFallback soup

/-- Stage 2: `div`s whose class text contains `"Observation"` (case-sensitive)
or `"obs"` (case-insensitive). -/
def stage2Pred (n : Node) : Bool :=
  n.tag = "div" &&
    (match n.attr "class" with
     | some c => pyIn "Observation" c || pyIn "obs" (pyLower c)
     | none => false)

def stage2Rows (soup : Node) : List Node :=
  (contentPos soup).2.findAll stage2Pred

/-- Stage 3: `li`s whose class text contains `"species"` (case-insensitive). -/
def stage3Rows (soup : Node) : List Node :=
  (contentPos soup).2.findAll (fun n => n.tag = "li" && classLowerHas "species" n)

/-- Stage 4: all table rows. -/
def stage4Rows (soup : Node) : List Node :=
  (contentPos soup).2.findAll (fun n => n.tag = "tr")

/-- `link.find_parent(["div", "li", "tr"])`: nearest enclosing block. -/
def blockAncestor (anc : List Node) : Option Node :=
  anc.find? (fun a => a.tag = "div" || a.tag = "li" || a.tag = "tr")

/-- Stage 5: for each checklist link under the content scope, its nearest
`div`/`li`/`tr` ancestor, deduplicated (bs4 tag equality is structural). -/
def stage5Rows (soup : Node) : List Node :=
  let cp := (contentPos soup).1
  let links := (descPos soup).filter (fun p =>
    cp.isPrefixOf p.path && p.path ≠ cp &&
      p.node.tag = "a" && hrefHas "/checklist/" p.node)
  links.foldl (fun acc p =>
    match blockAncestor p.anc with
    | some par => if acc.contains par then acc else acc ++ [par]
    | none => acc) []

/-- The candidate fragments: an ordered cascade, each fragment stage attempted
only while `obs_rows` is still empty. -/
def obsRows (soup : Node) : List Node :=
  let r2 := stage2Rows soup
  if !r2.isEmpty then r2 else
  let r3 := stage3Rows soup
  if !r3.isEmpty then r3 else
  let r4 := stage4Rows soup
  if !r4.isEmpty then r4 else stage5Rows soup

/-- The fragment-path sightings: one record per candidate row, kept only when
the dict is truthy and its `species` value is truthy
(`if sighting and sighting.get("species")`). -/
def keptSightings (soup : Node) : List Sighting :=
  (obsRows soup).filterMap (fun row =>
    let s := extract_sighting_data row
    if !s.isEmpty && pyTruthy (pyDictGet s "species") then some s else none)

/-! ## Stage 6: the structured-data fallback (`extract_sightings_generic`)

Uncaught Python exceptions (here: the `TypeError` raised by `json.loads(None)`
on a payload-less script block, and by `"name" in item` on a number, boolean
or null item) are modelled by `Except.error`; the caught
`json.JSONDecodeError` and `AttributeError` are handled locally, as in the
source. -/

inductive PyErr where
  | typeError

/-- The record built from one structured-data object carrying a `name`. -/
def mkGenericSighting (fields : List (String × JValue)) : Sighting :=
  [("species", (fields.lookup "name").getD (.jstr "")),
   ("location",
     match fields.lookup "location" with
     | some (.jobj lf) => (lf.lookup "name").getD (.jstr "")
     | _ => .jstr ""),
   ("date", (fields.lookup "datePublished").getD (.jstr "")),
   ("observer", .jstr ""),
   ("checklist_url", (fields.lookup "url").getD (.jstr "")),
   ("count", .jstr "")]

/-- The `for item in data` loop of one block.  A string or list item in which
`"name" in item` succeeds raises an `AttributeError` at `item.get`, caught at
block level: the rest of the block is dropped but earlier records survive.
`"name" in item` on a number, boolean or null raises an uncaught `TypeError`. -/
def processItems : List JValue → Except PyErr (List Sighting)
  | [] => .ok []
  | .jobj fields :: rest =>
      if (fields.map Prod.fst).contains "name" then
        match processItems rest with
        | .ok l => .ok (mkGenericSighting fields :: l)
        | .error e => .error e
      else processItems rest
  | .jstr s :: rest => if pyIn "name" s then .ok [] else processItems rest
  | .jarr xs :: rest => if xs.contains (.jstr "name") then .ok [] else processItems rest
  | _ :: _ => .error .typeError

/-- One `script type="application/ld+json"` block: a payload-less block makes
`json.loads(None)` raise an uncaught `TypeError`; an unparsable payload is a
caught `json.JSONDecodeError` and yields nothing; a payload that is not a list
is ignored. -/
def processBlock (jp : String → Option JValue) (blk : Node) : Except PyErr (List Sighting) :=
  match blk.strProp with
  | none => .error .typeError
  | some s =>
      match jp s with
      | none => .ok []
      | some (.jarr items) => processItems items
      | some _ => .ok []

def processBlocks (jp : String → Option JValue) : List Node → Except PyErr (List Sighting)
  | [] => .ok []
  | b :: bs =>
      match processBlock jp b with
      | .error e => .error e
      | .ok l =>
          match processBlocks jp bs with
          | .error e => .error e
          | .ok r => .ok (l ++ r)

/-- The linked-data script blocks of the whole document. -/
def ldJsonBlocks (soup : Node) : List Node :=
  soup.findAll (fun n => n.tag = "script" && n.attr "type" = some "application/ld+json")

/-- `extract_sightings_generic(soup)`. -/
def extract_sightings_generic (jp : String → Option JValue) (soup : Node) :
    Except PyErr (List Sighting) :=
  processBlocks jp (ldJsonBlocks soup)

/-- `parse_alerts` on the parsed document: the fragment cascade, then the
structured-data fallback whenever no sighting was retained. -/
def parse_alerts (jp : String → Option JValue) (soup : Node) :
    Except PyErr (List Sighting) :=
  let ss := keptSightings soup
  if ss.isEmpty then extract_sightings_generic jp soup else .ok ss

/-- `parse_alerts(html)` proper: `bs` models `BeautifulSoup(·, "html.parser")`. -/
def parse_alerts_html (bs : String → Node) (jp : String → Option JValue)
    (html : String) : Except PyErr (List Sighting) :=
  parse_alerts jp (bs html)

/-! ## Cookies (`get_cookies_from_env`) -/

/-- Python `s.split(";")`. -/
def splitOnSemi : List Char → List (List Char)
  | [] => [[]]
  | ';' :: rest => [] :: splitOnSemi rest
  | c :: rest =>
      match splitOnSemi rest with
      | [] => [[c]]
      | g :: gs => (c :: g) :: gs

/-- Python `item.split("=", 1)`: the part before and after the first `=`
(only used when `=` occurs in the item). -/
def splitFirstEq : List Char → List Char × List Char
  | [] => ([], [])
  | '=' :: rest => ([], rest)
  | c :: rest =>
      let p := splitFirstEq rest
      (c :: p.1, p.2)

/-- Python dict assignment `d[k] = v` on an insertion-ordered assoc list. -/
def dictSet (d : List (String × String)) (k v : String) : List (String × String) :=
  if d.any (fun p => p.1 = k) then
    d.map (fun p => if p.1 = k then (k, v) else p)
  else d ++ [(k, v)]

/-- The cookie-parsing loop over `cookie_string.split(";")`. -/
def parseCookieString (s : String) : List (String × String) :=
  (splitOnSemi s.toList).foldl (fun d item =>
    let it := trimChars item
    if charsHasSub ['='] it then
      let p := splitFirstEq it
      dictSet d (String.mk (trimChars p.1)) (String.mk (trimChars p.2))
    else d) []

/-- `get_cookies_from_env()`: `env` is `os.environ.get("EBIRD_COOKIES")`.
`Except.error` models the `sys.exit(1)` after the missing-credential
diagnostic. -/
def get_cookies_from_env (env : Option String) : Except Unit (List (String × String)) :=
  let cookie_string := env.getD ""
  if cookie_string = "" then .error ()
  else .ok (parseCookieString cookie_string)

/-! ## Fetcher (`fetch_alerts`)

The HTTP session is an external collaborator: `fetch_alerts` is modelled on
the final response it observes (`requests` follows redirects, so `status` and
`url` are the final status and URL).  `Except.error` carries the `ERROR:`
lines printed before `sys.exit(1)`. -/

structure Resp where
  status : Nat
  url : String
  text : String

def ALERT_URL : String := "https://ebird.org/alert/summary?sid=SN35466"

def statusLine (resp : Resp) : String :=
  "ERROR: Failed to fetch alerts. Status code: " ++ toString resp.status

def loginLine : String :=
  "ERROR: Redirected to login page. Cookies may have expired."

def fetch_alerts (resp : Resp) : Except (List String) String :=
  if resp.status ≠ 200 then
    .error ([statusLine resp] ++
      (if pyIn "login" (pyLower resp.url) then [loginLine] else []))
  else .ok resp.text

/-! ## Report Assembler and the `main` pipeline -/

/-- The `data` dict of `generate_output` (`ts` is the captured UTC
timestamp). -/
def generate_output_data (ts : String) (sightings : List Sighting) : JValue :=
  .jobj [("last_updated", .jstr ts),
         ("alert_url", .jstr ALERT_URL),
         ("sightings", .jarr (sightings.map .jobj)),
         ("count", .jnum sightings.length)]

inductive ExitErr where
  | noCookies
  | fetchFail (msgs : List String)
  | pyError (e : PyErr)

/-- The `main()` pipeline up to the report data.  `net` is the network: the
response produced for the cookie mapping the fetch is invoked with; `bs` is
the HTML parser; `jp` the JSON reader; `ts` the capture timestamp. -/
def runMain (env : Option String) (net : List (String × String) → Resp)
    (bs : String → Node) (jp : String → Option JValue) (ts : String) :
    Except ExitErr JValue := do
  let cookies ← (get_cookies_from_env env).mapError (fun _ => ExitErr.noCookies)
  let html ← (fetch_alerts (net cookies)).mapError ExitErr.fetchFail
  let sightings ← (parse_alerts_html bs jp html).mapError ExitErr.pyError
  pure (generate_output_data ts sightings)

/-! ## JSON serialisation (`json.dump(..., indent=2, ensure_ascii=False)`)

`dumpV` follows CPython's pretty printer: two-space indentation, `", "`-free
item separators (a comma, then a newline and the item indent), `": "` between
a key and its value, `"[]"`/empty braces for empty containers; strings escape
the quote, the backslash, the short control escapes and other control
characters as `\u00XX`, leaving everything else (including non-ASCII) as is. -/

def digitChar (n : Nat) : Char := Char.ofNat (48 + n)

def natCharsAux : Nat → Nat → List Char
  | 0, _ => []
  | fuel + 1, n =>
      if n < 10 then [digitChar n]
      else natCharsAux fuel (n / 10) ++ [digitChar (n % 10)]

/-- The decimal digits of a natural number. -/
def natChars (n : Nat) : List Char := natCharsAux (n + 1) n

/-- The decimal form of an integer. -/
def intChars (n : Int) : List Char :=
  if n < 0 then '-' :: natChars n.natAbs else natChars n.natAbs

def hexDigitChar (n : Nat) : Char :=
  if n < 10 then Char.ofNat (48 + n) else Char.ofNat (87 + n)

/-- JSON escaping of one character. -/
def escChar (c : Char) : List Char :=
  if c = '"' then ['\\', '"']
  else if c = '\\' then ['\\', '\\']
  else if c = '\n' then ['\\', 'n']
  else if c = '\t' then ['\\', 't']
  else if c = '\r' then ['\\', 'r']
  else if c = Char.ofNat 8 then ['\\', 'b']
  else if c = Char.ofNat 12 then ['\\', 'f']
  else if c.toNat < 32 then
    ['\\', 'u', '0', '0', hexDigitChar (c.toNat / 16), hexDigitChar (c.toNat % 16)]
  else [c]

def encChars : List Char → List Char
  | [] => []
  | c :: cs => escChar c ++ encChars cs

/-- A JSON string literal. -/
def encStr (s : String) : List Char := '"' :: (encChars s.toList ++ ['"'])

/-- A newline followed by the indent of the next line. -/
def nlInd (n : Nat) : List Char := '\n' :: List.replicate n ' '

mutual

def dumpV (ind : Nat) : JValue → List Char
  | .jnull => ['n', 'u', 'l', 'l']
  | .jbool true => ['t', 'r', 'u', 'e']
  | .jbool false => ['f', 'a', 'l', 's', 'e']
  | .jnum n => intChars n
  | .jstr s => encStr s
  | .jarr [] => ['[', ']']
  | .jarr (x :: xs) =>
      '[' :: (nlInd (ind + 2) ++ dumpV (ind + 2) x ++ dumpArr (ind + 2) xs ++
        nlInd ind ++ [']'])
  | .jobj [] => [Char.ofNat 123, Char.ofNat 125]
  | .jobj (f :: fs) =>
      Char.ofNat 123 :: (nlInd (ind + 2) ++ dumpField (ind + 2) f ++
        dumpObj (ind + 2) fs ++ nlInd ind ++ [Char.ofNat 125])

def dumpField (ind : Nat) : String × JValue → List Char
  | (k, v) => encStr k ++ (':' :: ' ' :: dumpV ind v)

def dumpArr (ind : Nat) : List JValue → List Char
  | [] => []
  | x :: xs => ',' :: (nlInd ind ++ dumpV ind x ++ dumpArr ind xs)

def dumpObj (ind : Nat) : List (String × JValue) → List Char
  | [] => []
  | f :: fs => ',' :: (nlInd ind ++ dumpField ind f ++ dumpObj ind fs)

end

/-- The text written to `data.json`. -/
def dumpJson (v : JValue) : String := String.mk (dumpV 0 v)

/-! ## JSON reading (`json.loads`)

A recursive-descent reader over the character list, lenient where leniency
cannot affect the round trip (for the integer-and-string subset the program
emits).  The container parsers are driven by a fuel argument; `parseJson`
supplies the input length, which the round-trip lemmas show is sufficient. -/

def isWsChar (c : Char) : Bool := c = ' ' || c = '\n' || c = '\r' || c = '\t'

def skipWs (l : List Char) : List Char := l.dropWhile isWsChar

def isDigitChar (c : Char) : Bool := '0' ≤ c && c ≤ '9'

def hexVal (c : Char) : Nat :=
  if '0' ≤ c && c ≤ '9' then c.toNat - 48
  else if 'a' ≤ c && c ≤ 'f' then c.toNat - 87
  else if 'A' ≤ c && c ≤ 'F' then c.toNat - 55
  else 0

/-- Decoding of a single-character escape. -/
def escDecode (e : Char) : Option Char :=
  if e = '"' then some '"'
  else if e = '\\' then some '\\'
  else if e = '/' then some '/'
  else if e = 'n' then some '\n'
  else if e = 't' then some '\t'
  else if e = 'r' then some '\r'
  else if e = 'b' then some (Char.ofNat 8)
  else if e = 'f' then some (Char.ofNat 12)
  else none

mutual

/-- The body of a string literal (after the opening quote), returning the
decoded characters and the input after the closing quote. -/
def parseStrBody : List Char → Option (List Char × List Char)
  | [] => none
  | c :: rest =>
      if c = '"' then some ([], rest)
      else if c = '\\' then parseEscBody rest
      else (parseStrBody rest).map (fun p => (c :: p.1, p.2))

/-- After a backslash. -/
def parseEscBody : List Char → Option (List Char × List Char)
  | [] => none
  | e :: rest =>
      if e = 'u' then parseHex4 rest
      else
        match escDecode e with
        | some d => (parseStrBody rest).map (fun p => (d :: p.1, p.2))
        | none => none

/-- After `\u`: four hex digits. -/
def parseHex4 : List Char → Option (List Char × List Char)
  | h1 :: h2 :: h3 :: h4 :: rest =>
      (parseStrBody rest).map (fun p =>
        (Char.ofNat (((hexVal h1 * 16 + hexVal h2) * 16 + hexVal h3) * 16 + hexVal h4)
          :: p.1, p.2))
  | _ => none

end

def digitsToNat (l : List Char) : Nat :=
  l.foldl (fun acc c => 10 * acc + (c.toNat - 48)) 0

/-- An integer literal (maximal digit run). -/
def parseNum (l : List Char) : Option (JValue × List Char) :=
  match l with
  | [] => none
  | c :: rest =>
      if c = '-' then
        let ds := rest.takeWhile isDigitChar
        if ds.isEmpty then none
        else some (.jnum (-(digitsToNat ds : Int)), rest.dropWhile isDigitChar)
      else
        let ds := (c :: rest).takeWhile isDigitChar
        if ds.isEmpty then none
        else some (.jnum (digitsToNat ds), (c :: rest).dropWhile isDigitChar)

mutual

def parseV : Nat → List Char → Option (JValue × List Char)
  | 0, _ => none
  | fuel + 1, l =>
      match skipWs l with
      | [] => none
      | c :: rest =>
          if c = 'n' then
            match rest with
            | 'u' :: 'l' :: 'l' :: r => some (.jnull, r)
            | _ => none
          else if c = 't' then
            match rest with
            | 'r' :: 'u' :: 'e' :: r => some (.jbool true, r)
            | _ => none
          else if c = 'f' then
            match rest with
            | 'a' :: 'l' :: 's' :: 'e' :: r => some (.jbool false, r)
            | _ => none
          else if c = '"' then
            (parseStrBody rest).map (fun p => (.jstr (String.mk p.1), p.2))
          else if c = '[' then parseArr fuel rest
          else if c = Char.ofNat 123 then parseObj fuel rest
          else parseNum (c :: rest)

def parseArr : Nat → List Char → Option (JValue × List Char)
  | 0, _ => none
  | fuel + 1, l =>
      match skipWs l with
      | [] => none
      | c :: rest =>
          if c = ']' then some (.jarr [], rest)
          else
            match parseV fuel (c :: rest) with
            | none => none
            | some (v, rest1) =>
                match parseArrRest fuel rest1 with
                | none => none
                | some (vs, rest2) => some (.jarr (v :: vs), rest2)

def parseArrRest : Nat → List Char → Option (List JValue × List Char)
  | 0, _ => none
  | fuel + 1, l =>
      match skipWs l with
      | [] => none
      | c :: rest =>
          if c = ']' then some ([], rest)
          else if c = ',' then
            match parseV fuel rest with
            | none => none
            | some (v, rest1) =>
                match parseArrRest fuel rest1 with
                | none => none
                | some (vs, rest2) => some (v :: vs, rest2)
          else none

def parseField : Nat → List Char → Option ((String × JValue) × List Char)
  | 0, _ => none
  | fuel + 1, l =>
      match skipWs l with
      | [] => none
      | c :: rest =>
          if c = '"' then
            match parseStrBody rest with
            | none => none
            | some (ks, rest1) =>
                match skipWs rest1 with
                | ':' :: rest2 =>
                    match parseV fuel rest2 with
                    | none => none
                    | some (v, rest3) => some ((String.mk ks, v), rest3)
                | _ => none
          else none

def parseObj : Nat → List Char → Option (JValue × List Char)
  | 0, _ => none
  | fuel + 1, l =>
      match skipWs l with
      | [] => none
      | c :: rest =>
          if c = Char.ofNat 125 then some (.jobj [], rest)
          else
            match parseField fuel (c :: rest) with
            | none => none
            | some (f, rest1) =>
                match parseObjRest fuel rest1 with
                | none => none
                | some (fs, rest2) => some (.jobj (f :: fs), rest2)

def parseObjRest : Nat → List Char → Option (List (String × JValue) × List Char)
  | 0, _ => none
  | fuel + 1, l =>
      match skipWs l with
      | [] => none
      | c :: rest =>
          if c = Char.ofNat 125 then some ([], rest)
          else if c = ',' then
            match parseField fuel rest with
            | none => none
            | some (f, rest1) =>
                match parseObjRest fuel rest1 with
                | none => none
                | some (fs, rest2) => some (f :: fs, rest2)
          else none

end

/-- `json.loads` on a whole document. -/
def parseJson (s : String) : Option JValue :=
  match parseV (s.toList.length + 1) s.toList with
  | some (v, rest) => if skipWs rest = [] then some v else none
  | none => none

/-- Key lookup in a JSON object. -/
def jGet : JValue → String → Option JValue
  | .jobj fs, k => fs.lookup k
  | _, _ => none

/-! ## Auxiliary notions used by the analyses -/

mutual

/-- Sufficient parser fuel for a dumped value (established below). -/
def fuelV : JValue → Nat
  | .jnull => 1
  | .jbool _ => 1
  | .jnum _ => 1
  | .jstr _ => 1
  | .jarr xs => 2 + fuelArr xs
  | .jobj fs => 2 + fuelObj fs

def fuelArr : List JValue → Nat
  | [] => 0
  | x :: xs => 1 + fuelV x + fuelArr xs

def fuelObj : List (String × JValue) → Nat
  | [] => 0
  | f :: fs => 2 + fuelV f.2 + fuelObj fs

end

/-- The head of the list, if any, fails the test (used to state that a
maximal-munch integer read stops exactly at the end of the digits). -/
def headFails (p : Char → Bool) : List Char → Bool
  | [] => true
  | c :: _ => !p c

/-- The `ERROR:` lines of a failed fetch. -/
def errMsgs : Except (List String) String → List String
  | .error m => m
  | .ok _ => []

def exceptIsOk : Except (List String) String → Bool
  | .ok _ => true
  | .error _ => false

/-- The six keys of a sighting record, in insertion order. -/
def sightingKeys : List String :=
  ["species", "location", "date", "observer", "checklist_url", "count"]

/-- The record shape shared by both extraction paths. -/
def sightingShape (r : Sighting) : Prop :=
  r.map Prod.fst = sightingKeys ∧
    r.lookup "observer" = some (.jstr "") ∧ r.lookup "count" = some (.jstr "")

/-! ## Readings of the spec used for comparison with the code

These definitions follow the specification's wording; the theorems below
compare them with the functions extracted from the source. -/

/-- The species rule as claim C5 words it: the first (in document order) link
or span whose class contains "species", else the first (in document order)
bold or strong-emphasis element of the fragment; else the empty string. -/
def specSpeciesText (el : Node) : String :=
  match el.findFirst (fun n => (n.tag = "a" || n.tag = "span") && classLowerHas "species" n) with
  | some e => e.getText
  | none =>
      match el.findFirst (fun n => n.tag = "strong" || n.tag = "b") with
      | some e => e.getText
      | none => ""

/-- The species cascade as the code implements it (the amended claim C5):
tag-priority order `a.species`, `span.species`, `strong`, `b`. -/
def amendedSpeciesText (el : Node) : String :=
  match (el.findAll (fun n => n.tag = "a" && classLowerHas "species" n)).head? with
  | some e => e.getText
  | none =>
      match (el.findAll (fun n => n.tag = "span" && classLowerHas "species" n)).head? with
      | some e => e.getText
      | none =>
          match (el.findAll (fun n => n.tag = "strong")).head? with
          | some e => e.getText
          | none =>
              match (el.findAll (fun n => n.tag = "b")).head? with
              | some e => e.getText
              | none => ""

/-- The checklist-URL rule as the spec words it (claim C6): the first link of
the fragment whose target contains the checklist segment contributes its href,
with a root-relative href rewritten to absolute form by prefixing the site's
scheme and host; no such link leaves the field empty. -/
def specChecklistUrl (el : Node) : String :=
  match (el.findAll (fun n => n.tag = "a" && hrefHas "/checklist/" n)).head? with
  | some a =>
      let h := (a.attr "href").getD ""
      if pyStarts h "/" then "https://ebird.org" ++ h else h
  | none => ""

/-! ## Concrete documents and collaborators used in the claim analyses

The JSON reader handed to the pipeline in the concrete evaluations is the
in-file `parseJson`, so the embedded linked-data payloads are genuine JSON
text. -/

/-- A page with no recognisable fragments, whose only structured-data block is
`[{"name": ""}]`: valid JSON whose single object carries an empty name. -/
def docC1 : Node :=
  .elem "[document]" [] [
    .elem "html" [] [
      .elem "body" [] [
        .elem "script" [("type", "application/ld+json")]
          [.text "[\x7b\"name\": \"\"\x7d]"]]]]

/-- A page with one stage-2 fragment (class "obs-row") that contains no
species markup, plus a structured-data block naming a species. -/
def docC2 : Node :=
  .elem "[document]" [] [
    .elem "body" [] [
      .elem "div" [("class", "obs-row")] [.text "no species markup here"],
      .elem "script" [("type", "application/ld+json")]
        [.text "[\x7b\"name\": \"Hermit Thrush\"\x7d]"]]]

/-- A well-behaved page: one stage-2 fragment with a species, a location and
a root-relative checklist link (the spec's own scenario). -/
def docW : Node :=
  .elem "[document]" [] [
    .elem "body" [] [
      .elem "div" [("class", "Observation")] [
        .elem "strong" [] [.text "Snowy Owl"],
        .elem "span" [("class", "location")] [.text "Lakeshore Park"],
        .elem "a" [("href", "/checklist/S999")] [.text "View"]]]]

/-- The sighting extracted from the fragment of `docW`. -/
def recW : Sighting :=
  [("species", .jstr "Snowy Owl"), ("location", .jstr "Lakeshore Park"),
   ("date", .jstr ""), ("observer", .jstr ""),
   ("checklist_url", .jstr "https://ebird.org/checklist/S999"), ("count", .jstr "")]

/-- A fragment whose first emphasis element in document order is a `b`,
followed by a `strong`. -/
def exC5 : Node :=
  .elem "div" [] [
    .elem "b" [] [.text "Boldy"],
    .elem "strong" [] [.text "Strongy"]]

/-- Three linked-data blocks; the middle one holds text that is not JSON. -/
def docC8skip : Node :=
  .elem "[document]" [] [
    .elem "script" [("type", "application/ld+json")]
      [.text "[\x7b\"name\": \"A\"\x7d]"],
    .elem "script" [("type", "application/ld+json")] [.text "this is not json"],
    .elem "script" [("type", "application/ld+json")]
      [.text "[\x7b\"name\": \"B\"\x7d]"]]

/-- Three linked-data blocks; the middle one is childless, so its `.string`
is `None` and `json.loads(None)` raises an uncaught `TypeError`. -/
def docC8crash : Node :=
  .elem "[document]" [] [
    .elem "script" [("type", "application/ld+json")]
      [.text "[\x7b\"name\": \"A\"\x7d]"],
    .elem "script" [("type", "application/ld+json")] [],
    .elem "script" [("type", "application/ld+json")]
      [.text "[\x7b\"name\": \"B\"\x7d]"]]

/-- The stage-6 record produced from `{"name": "A"}`. -/
def recA : Sighting :=
  [("species", .jstr "A"), ("location", .jstr ""), ("date", .jstr ""),
   ("observer", .jstr ""), ("checklist_url", .jstr ""), ("count", .jstr "")]

/-- The stage-6 record produced from `{"name": "B"}`. -/
def recB : Sighting :=
  [("species", .jstr "B"), ("location", .jstr ""), ("date", .jstr ""),
   ("observer", .jstr ""), ("checklist_url", .jstr ""), ("count", .jstr "")]

/-- A page whose only structured-data block is `[{"name": 5}]`: the name is a
number, not a string. -/
def docC9 : Node :=
  .elem "[document]" [] [
    .elem "script" [("type", "application/ld+json")] [.text "[\x7b\"name\": 5\x7d]"]]

/-- A network that answers 500 exactly when the fetch is invoked with an
empty cookie mapping (used to observe that the fetch does happen). -/
def netProbe : List (String × String) → Resp := fun cs =>
  if cs.isEmpty then ⟨500, ALERT_URL, ""⟩ else ⟨200, ALERT_URL, "<html></html>"⟩

/-- A trivial HTML parser stub for pipeline runs whose parse stage is never
reached or never matters. -/
def bs0 : String → Node := fun _ => .elem "[document]" [] []

/-- An HTML parser that always yields the well-behaved page. -/
def bsW : String → Node := fun _ => docW

/-! # Theorems

First the supporting lemmas (string, integer and whitespace facts, then the
serialisation round trip), then the claim analyses. -/


/-! ### Round-trip helper lemmas -/

theorem skipWs_cons_not (c : Char) (l : List Char) (h : isWsChar c = false) :
    skipWs (c :: l) = c :: l := by
  simp [skipWs, List.dropWhile_cons, h]

theorem skipWs_append_of_ws (w l : List Char) (hw : ∀ c ∈ w, isWsChar c = true) :
    skipWs (w ++ l) = skipWs l := by
  induction w with
  | nil => simp
  | cons c w ih =>
      simp only [List.cons_append, skipWs, List.dropWhile_cons, hw c (by simp)]
      exact ih (fun c hc => hw c (by simp [hc]))

theorem nlInd_ws (n : Nat) : ∀ c ∈ nlInd n, isWsChar c = true := by
  intro c hc
  simp [nlInd, List.mem_replicate] at hc
  rcases hc with rfl | ⟨_, rfl⟩ <;> decide

theorem skipWs_nlInd (n : Nat) (l : List Char) : skipWs (nlInd n ++ l) = skipWs l :=
  skipWs_append_of_ws _ l (nlInd_ws n)

theorem takeWhile_all_append (p : Char → Bool) (l r : List Char)
    (hl : ∀ c ∈ l, p c = true) (hr : headFails p r = true) :
    (l ++ r).takeWhile p = l ∧ (l ++ r).dropWhile p = r := by
  induction l with
  | nil =>
      cases r with
      | nil => simp
      | cons c r =>
          simp only [headFails, Bool.not_eq_true'] at hr
          simp [List.takeWhile_cons, List.dropWhile_cons, hr]
  | cons c l ih =>
      have hc : p c = true := hl c (by simp)
      have := ih (fun x hx => hl x (by simp [hx]))
      simp [List.takeWhile_cons, List.dropWhile_cons, hc, this.1, this.2]

theorem digitsToNat_append_one (l : List Char) (c : Char) :
    digitsToNat (l ++ [c]) = 10 * digitsToNat l + (c.toNat - 48) := by
  simp [digitsToNat, List.foldl_append]

theorem digitChar_spec (d : Nat) (hd : d < 10) :
    isDigitChar (digitChar d) = true ∧ (digitChar d).toNat - 48 = d := by
  unfold digitChar
  interval_cases d <;> decide

theorem natCharsAux_spec : ∀ fuel n, n < fuel →
    natCharsAux fuel n ≠ [] ∧ (∀ c ∈ natCharsAux fuel n, isDigitChar c = true) ∧
      digitsToNat (natCharsAux fuel n) = n := by
  intro fuel
  induction fuel with
  | zero => omega
  | succ fuel ih =>
      intro n hn
      by_cases h10 : n < 10
      · have hrec : natCharsAux (fuel + 1) n = [digitChar n] := by
          simp [natCharsAux, h10]
        rw [hrec]
        obtain ⟨hd1, hd2⟩ := digitChar_spec n h10
        refine ⟨by simp, ?_, by simp [digitsToNat, hd2]⟩
        intro c hc
        simp at hc
        rw [hc]
        exact hd1
      · have hrec : natCharsAux (fuel + 1) n =
            natCharsAux fuel (n / 10) ++ [digitChar (n % 10)] := by
          simp [natCharsAux, h10]
        have hdiv : n / 10 < fuel := by
          have := Nat.div_lt_self (by omega : 0 < n) (by omega : 1 < 10)
          omega
        obtain ⟨hne, hdig, hval⟩ := ih (n / 10) hdiv
        obtain ⟨hm1, hm2⟩ := digitChar_spec (n % 10) (Nat.mod_lt _ (by omega))
        rw [hrec]
        refine ⟨by simp, ?_, ?_⟩
        · intro c hc
          rw [List.mem_append] at hc
          rcases hc with hc | hc
          · exact hdig c hc
          · rw [List.mem_singleton] at hc
            rw [hc]
            exact hm1
        · rw [digitsToNat_append_one, hval, hm2]
          omega

theorem natChars_spec (n : Nat) :
    natChars n ≠ [] ∧ (∀ c ∈ natChars n, isDigitChar c = true) ∧
      digitsToNat (natChars n) = n :=
  natCharsAux_spec (n + 1) n (by omega)

theorem ws_not_digit {c : Char} (h : isWsChar c = true) : isDigitChar c = false := by
  have hc : ((c = ' ' ∨ c = '\n') ∨ c = '\r') ∨ c = '\t' := by
    simpa [isWsChar] using h
  rcases hc with ((rfl | rfl) | rfl) | rfl <;> decide

theorem digit_not_ws {c : Char} (h : isDigitChar c = true) : isWsChar c = false := by
  cases hws : isWsChar c with
  | false => rfl
  | true => rw [ws_not_digit hws] at h; exact Bool.noConfusion h

theorem digit_ne {c : Char} (d : Char) (h : isDigitChar c = true)
    (hd : isDigitChar d = false) : c ≠ d := by
  intro he
  rw [he, hd] at h
  exact Bool.noConfusion h



theorem parseNum_intChars (n : Int) (rest : List Char)
    (hr : headFails isDigitChar rest = true) :
    parseNum (intChars n ++ rest) = some (.jnum n, rest) := by
  obtain ⟨hne, hdig, hval⟩ := natChars_spec n.natAbs
  obtain ⟨c, t, hct⟩ : ∃ c t, natChars n.natAbs = c :: t := by
    cases hc : natChars n.natAbs with
    | nil => exact absurd hc hne
    | cons c t => exact ⟨c, t, rfl⟩
  have hcd : isDigitChar c = true := hdig c (by rw [hct]; simp)
  obtain ⟨htake, hdrop⟩ := takeWhile_all_append isDigitChar (natChars n.natAbs) rest hdig hr
  by_cases hneg : n < 0
  · have hi : intChars n = '-' :: natChars n.natAbs := by simp [intChars, hneg]
    rw [hi]
    simp only [List.cons_append, parseNum, if_pos rfl, htake, hdrop]
    have hie : (natChars n.natAbs).isEmpty = false := by
      rw [hct]; rfl
    rw [hie]
    have hn : -(n.natAbs : Int) = n := by omega
    simp only [Bool.false_eq_true, if_false, hval]
    rw [hn]
    simp
  · have hi : intChars n = natChars n.natAbs := by simp [intChars, hneg]
    rw [hi, hct]
    have hcm : c ≠ '-' := digit_ne '-' hcd (by decide)
    simp only [List.cons_append, parseNum, if_neg hcm]
    rw [← List.cons_append, ← hct, htake, hdrop]
    have hie : (natChars n.natAbs).isEmpty = false := by
      rw [hct]; rfl
    rw [hie]
    have hn : (n.natAbs : Int) = n := by omega
    simp only [Bool.false_eq_true, if_false, hval]
    rw [hn]

theorem hexVal_hexDigitChar (d : Nat) (hd : d < 16) : hexVal (hexDigitChar d) = d := by
  unfold hexDigitChar hexVal
  interval_cases d <;> decide

theorem parseStrBody_enc : ∀ (l rest : List Char),
    parseStrBody (encChars l ++ ('"' :: rest)) = some (l, rest) := by
  intro l
  induction l with
  | nil =>
      intro rest
      simp [encChars, parseStrBody]
  | cons c l ih =>
      intro rest
      have hstep : encChars (c :: l) = escChar c ++ encChars l := by
        simp [encChars]
      rw [hstep, List.append_assoc]
      by_cases h1 : c = '"'
      · subst h1
        simp [escChar, parseStrBody, parseEscBody, escDecode, ih rest]
      · by_cases h2 : c = '\\'
        · subst h2
          simp [escChar, parseStrBody, parseEscBody, escDecode, ih rest]
        · by_cases h3 : c = '\n'
          · subst h3
            simp [escChar, parseStrBody, parseEscBody, escDecode, ih rest]
          · by_cases h4 : c = '\t'
            · subst h4
              simp [escChar, parseStrBody, parseEscBody, escDecode, ih rest]
            · by_cases h5 : c = '\r'
              · subst h5
                simp [escChar, parseStrBody, parseEscBody, escDecode, ih rest]
              · by_cases h6 : c = Char.ofNat 8
                · subst h6
                  simp [escChar, parseStrBody, parseEscBody, escDecode, ih rest,
                    (by decide : ¬(Char.ofNat 8 = '"')), (by decide : ¬(Char.ofNat 8 = '\\'))]
                · by_cases h7 : c = Char.ofNat 12
                  · subst h7
                    simp [escChar, parseStrBody, parseEscBody, escDecode, ih rest,
                      (by decide : ¬(Char.ofNat 12 = '"')), (by decide : ¬(Char.ofNat 12 = '\\'))]
                  · by_cases h8 : c.toNat < 32
                    · have hesc : escChar c =
                          ['\\', 'u', '0', '0', hexDigitChar (c.toNat / 16),
                            hexDigitChar (c.toNat % 16)] := by
                        simp [escChar, h1, h2, h3, h4, h5, h6, h7, h8]
                      rw [hesc]
                      have hv : ((hexVal '0' * 16 + hexVal '0') * 16 +
                          hexVal (hexDigitChar (c.toNat / 16))) * 16 +
                          hexVal (hexDigitChar (c.toNat % 16)) = c.toNat := by
                        rw [hexVal_hexDigitChar (c.toNat / 16) (by omega),
                            hexVal_hexDigitChar (c.toNat % 16) (by omega)]
                        have h0 : hexVal '0' = 0 := by decide
                        rw [h0]
                        omega
                      simp [parseStrBody, parseEscBody, parseHex4, ih rest, hv,
                        Char.ofNat_toNat]
                    · have hesc : escChar c = [c] := by
                        simp [escChar, h1, h2, h3, h4, h5, h6, h7, h8]
                      rw [hesc]
                      simp [parseStrBody, if_neg h1, if_neg h2, ih rest]



/-! ### Fuel bounds and parser dispatch lemmas -/

theorem dumpV_head (ind : Nat) (v : JValue) :
    ∃ c t, dumpV ind v = c :: t ∧ isWsChar c = false ∧ c ≠ ']' := by
  cases v with
  | jnull => exact ⟨'n', _, rfl, by decide, by decide⟩
  | jbool b => cases b with
      | true => exact ⟨'t', _, rfl, by decide, by decide⟩
      | false => exact ⟨'f', _, rfl, by decide, by decide⟩
  | jnum n =>
      by_cases hneg : n < 0
      · exact ⟨'-', natChars n.natAbs, by simp [dumpV, intChars, hneg], by decide, by decide⟩
      · obtain ⟨hne, hdig, -⟩ := natChars_spec n.natAbs
        obtain ⟨c, t, hct⟩ : ∃ c t, natChars n.natAbs = c :: t := by
          cases hc : natChars n.natAbs with
          | nil => exact absurd hc hne
          | cons c t => exact ⟨c, t, rfl⟩
        have hcd : isDigitChar c = true := hdig c (by rw [hct]; simp)
        exact ⟨c, t, by simp [dumpV, intChars, hneg, hct],
          digit_not_ws hcd, digit_ne ']' hcd (by decide)⟩
  | jstr s => exact ⟨'"', encChars s.toList ++ ['"'], rfl, by decide, by decide⟩
  | jarr xs =>
      cases xs with
      | nil => exact ⟨'[', _, rfl, by decide, by decide⟩
      | cons x xs => exact ⟨'[', _, rfl, by decide, by decide⟩
  | jobj fs =>
      cases fs with
      | nil => exact ⟨Char.ofNat 123, _, rfl, by decide, by decide⟩
      | cons f fs => exact ⟨Char.ofNat 123, _, rfl, by decide, by decide⟩

theorem headFails_dumpArr (ind ind2 : Nat) (xs : List JValue) (r : List Char) :
    headFails isDigitChar (dumpArr ind xs ++ (nlInd ind2 ++ r)) = true := by
  cases xs with
  | nil => simp [dumpArr, nlInd, headFails]; decide
  | cons x xs => simp [dumpArr, headFails]; decide

theorem headFails_dumpObj (ind ind2 : Nat) (fs : List (String × JValue)) (r : List Char) :
    headFails isDigitChar (dumpObj ind fs ++ (nlInd ind2 ++ r)) = true := by
  cases fs with
  | nil => simp [dumpObj, nlInd, headFails]; decide
  | cons f fs => simp [dumpObj, headFails]; decide

theorem parseV_null (f : Nat) (r : List Char) :
    parseV (f + 1) ('n' :: 'u' :: 'l' :: 'l' :: r) = some (.jnull, r) := by
  simp [parseV, skipWs_cons_not _ _ (by decide : isWsChar 'n' = false)]

theorem parseV_true (f : Nat) (r : List Char) :
    parseV (f + 1) ('t' :: 'r' :: 'u' :: 'e' :: r) = some (.jbool true, r) := by
  simp [parseV, skipWs_cons_not _ _ (by decide : isWsChar 't' = false)]

theorem parseV_false (f : Nat) (r : List Char) :
    parseV (f + 1) ('f' :: 'a' :: 'l' :: 's' :: 'e' :: r) = some (.jbool false, r) := by
  simp [parseV, skipWs_cons_not _ _ (by decide : isWsChar 'f' = false)]

theorem parseV_quote (f : Nat) (r : List Char) :
    parseV (f + 1) ('"' :: r) =
      (parseStrBody r).map (fun p => (.jstr (String.mk p.1), p.2)) := by
  simp [parseV, skipWs_cons_not _ _ (by decide : isWsChar '"' = false)]

theorem parseV_lbrack (f : Nat) (r : List Char) :
    parseV (f + 1) ('[' :: r) = parseArr f r := by
  simp [parseV, skipWs_cons_not _ _ (by decide : isWsChar '[' = false)]

theorem parseV_lbrace (f : Nat) (r : List Char) :
    parseV (f + 1) (Char.ofNat 123 :: r) = parseObj f r := by
  simp [parseV, skipWs_cons_not _ _ (by decide : isWsChar (Char.ofNat 123) = false),
    (by decide : ¬(Char.ofNat 123 = 'n')), (by decide : ¬(Char.ofNat 123 = 't')),
    (by decide : ¬(Char.ofNat 123 = 'f')), (by decide : ¬(Char.ofNat 123 = '"')),
    (by decide : ¬(Char.ofNat 123 = '['))]

theorem parseV_numhead (f : Nat) (c : Char) (r : List Char)
    (h : isDigitChar c = true ∨ c = '-') :
    parseV (f + 1) (c :: r) = parseNum (c :: r) := by
  rcases h with h | rfl
  · simp [parseV, skipWs_cons_not _ _ (digit_not_ws h),
      if_neg (digit_ne 'n' h (by decide)), if_neg (digit_ne 't' h (by decide)),
      if_neg (digit_ne 'f' h (by decide)), if_neg (digit_ne '"' h (by decide)),
      if_neg (digit_ne '[' h (by decide)),
      if_neg (digit_ne (Char.ofNat 123) h (by decide))]
  · simp [parseV, skipWs_cons_not _ _ (by decide : isWsChar '-' = false),
      (by decide : ¬(('-' : Char) = 'n')), (by decide : ¬(('-' : Char) = 't')),
      (by decide : ¬(('-' : Char) = 'f')), (by decide : ¬(('-' : Char) = '"')),
      (by decide : ¬(('-' : Char) = '[')), (by decide : ¬(('-' : Char) = Char.ofNat 123))]

theorem parseV_ws (f : Nat) (w l : List Char) (hw : ∀ c ∈ w, isWsChar c = true) :
    parseV (f + 1) (w ++ l) = parseV (f + 1) l := by
  simp only [parseV, skipWs_append_of_ws w l hw]

theorem parseArr_ws (f : Nat) (w l : List Char) (hw : ∀ c ∈ w, isWsChar c = true) :
    parseArr (f + 1) (w ++ l) = parseArr (f + 1) l := by
  simp only [parseArr, skipWs_append_of_ws w l hw]

theorem parseArrRest_ws (f : Nat) (w l : List Char) (hw : ∀ c ∈ w, isWsChar c = true) :
    parseArrRest (f + 1) (w ++ l) = parseArrRest (f + 1) l := by
  simp only [parseArrRest, skipWs_append_of_ws w l hw]

theorem parseObj_ws (f : Nat) (w l : List Char) (hw : ∀ c ∈ w, isWsChar c = true) :
    parseObj (f + 1) (w ++ l) = parseObj (f + 1) l := by
  simp only [parseObj, skipWs_append_of_ws w l hw]

theorem parseObjRest_ws (f : Nat) (w l : List Char) (hw : ∀ c ∈ w, isWsChar c = true) :
    parseObjRest (f + 1) (w ++ l) = parseObjRest (f + 1) l := by
  simp only [parseObjRest, skipWs_append_of_ws w l hw]

theorem parseField_ws (f : Nat) (w l : List Char) (hw : ∀ c ∈ w, isWsChar c = true) :
    parseField (f + 1) (w ++ l) = parseField (f + 1) l := by
  simp only [parseField, skipWs_append_of_ws w l hw]

theorem parseArr_step (f : Nat) (c : Char) (r : List Char)
    (hws : isWsChar c = false) (hc : c ≠ ']') :
    parseArr (f + 1) (c :: r) =
      (match parseV f (c :: r) with
       | none => none
       | some (v, rest1) =>
           match parseArrRest f rest1 with
           | none => none
           | some (vs, rest2) => some (.jarr (v :: vs), rest2)) := by
  simp only [parseArr, skipWs_cons_not _ _ hws, if_neg hc]

theorem parseArrRest_close (f : Nat) (r : List Char) :
    parseArrRest (f + 1) (']' :: r) = some ([], r) := by
  simp [parseArrRest, skipWs_cons_not _ _ (by decide : isWsChar ']' = false)]

theorem parseArrRest_comma (f : Nat) (r : List Char) :
    parseArrRest (f + 1) (',' :: r) =
      (match parseV f r with
       | none => none
       | some (v, rest1) =>
           match parseArrRest f rest1 with
           | none => none
           | some (vs, rest2) => some (v :: vs, rest2)) := by
  simp only [parseArrRest, skipWs_cons_not _ _ (by decide : isWsChar ',' = false)]
  simp [(by decide : ¬((',' : Char) = ']'))]

theorem parseObj_close (f : Nat) (r : List Char) :
    parseObj (f + 1) (Char.ofNat 125 :: r) = some (.jobj [], r) := by
  simp [parseObj, skipWs_cons_not _ _ (by decide : isWsChar (Char.ofNat 125) = false)]

theorem parseObj_field (f : Nat) (c : Char) (r : List Char)
    (hws : isWsChar c = false) (hc : c ≠ Char.ofNat 125) :
    parseObj (f + 1) (c :: r) =
      (match parseField f (c :: r) with
       | none => none
       | some (fd, rest1) =>
           match parseObjRest f rest1 with
           | none => none
           | some (fs, rest2) => some (.jobj (fd :: fs), rest2)) := by
  simp only [parseObj, skipWs_cons_not _ _ hws, if_neg hc]

theorem parseObjRest_close (f : Nat) (r : List Char) :
    parseObjRest (f + 1) (Char.ofNat 125 :: r) = some ([], r) := by
  simp [parseObjRest, skipWs_cons_not _ _ (by decide : isWsChar (Char.ofNat 125) = false)]

theorem parseObjRest_comma (f : Nat) (r : List Char) :
    parseObjRest (f + 1) (',' :: r) =
      (match parseField f r with
       | none => none
       | some (fd, rest1) =>
           match parseObjRest f rest1 with
           | none => none
           | some (fs, rest2) => some (fd :: fs, rest2)) := by
  simp only [parseObjRest, skipWs_cons_not _ _ (by decide : isWsChar ',' = false)]
  simp [(by decide : ¬((',' : Char) = Char.ofNat 125))]

theorem parseField_quote (f : Nat) (r : List Char) :
    parseField (f + 1) ('"' :: r) =
      (match parseStrBody r with
       | none => none
       | some (ks, rest1) =>
           match skipWs rest1 with
           | ':' :: rest2 =>
               match parseV f rest2 with
               | none => none
               | some (v, rest3) => some ((String.mk ks, v), rest3)
           | _ => none) := by
  simp [parseField, skipWs_cons_not _ _ (by decide : isWsChar '"' = false)]



theorem parseField_of_parseV (k : String) (v : JValue) (ind f : Nat) (rest : List Char)
    (hf : 1 ≤ f)
    (hpv : parseV f (dumpV ind v ++ rest) = some (v, rest)) :
    parseField (f + 1) (dumpField ind (k, v) ++ rest) = some ((k, v), rest) := by
  have h1 : dumpField ind (k, v) ++ rest =
      '"' :: (encChars k.toList ++ ('"' :: (':' :: (' ' :: (dumpV ind v ++ rest))))) := by
    simp [dumpField, encStr]
  rw [h1, parseField_quote, parseStrBody_enc]
  obtain ⟨g, rfl⟩ : ∃ g, f = g + 1 := ⟨f - 1, by omega⟩
  have hsk := skipWs_cons_not ':' (' ' :: (dumpV ind v ++ rest))
    (by decide : isWsChar ':' = false)
  simp only [hsk]
  have h2 : (' ' :: (dumpV ind v ++ rest)) = [' '] ++ (dumpV ind v ++ rest) := rfl
  rw [h2, parseV_ws g _ _ (by intro c hc; simp at hc; rw [hc]; decide), hpv]
  simp

mutual

theorem parseV_dump : ∀ (v : JValue) (ind fuel : Nat) (rest : List Char),
    fuelV v ≤ fuel → headFails isDigitChar rest = true →
    parseV fuel (dumpV ind v ++ rest) = some (v, rest)
  | .jnull, ind, fuel, rest, hf, hr => by
      obtain ⟨f, rfl⟩ : ∃ f, fuel = f + 1 := ⟨fuel - 1, by simp [fuelV] at hf; omega⟩
      simpa [dumpV] using parseV_null f rest
  | .jbool true, ind, fuel, rest, hf, hr => by
      obtain ⟨f, rfl⟩ : ∃ f, fuel = f + 1 := ⟨fuel - 1, by simp [fuelV] at hf; omega⟩
      simpa [dumpV] using parseV_true f rest
  | .jbool false, ind, fuel, rest, hf, hr => by
      obtain ⟨f, rfl⟩ : ∃ f, fuel = f + 1 := ⟨fuel - 1, by simp [fuelV] at hf; omega⟩
      simpa [dumpV] using parseV_false f rest
  | .jnum n, ind, fuel, rest, hf, hr => by
      obtain ⟨f, rfl⟩ : ∃ f, fuel = f + 1 := ⟨fuel - 1, by simp [fuelV] at hf; omega⟩
      by_cases hneg : n < 0
      · have h1 : dumpV ind (.jnum n) ++ rest = '-' :: (natChars n.natAbs ++ rest) := by
          simp [dumpV, intChars, hneg]
        rw [h1, parseV_numhead f '-' _ (Or.inr rfl), ← h1]
        simpa [dumpV] using parseNum_intChars n rest hr
      · obtain ⟨hne, hdig, -⟩ := natChars_spec n.natAbs
        obtain ⟨c, t, hct⟩ : ∃ c t, natChars n.natAbs = c :: t := by
          cases hc : natChars n.natAbs with
          | nil => exact absurd hc hne
          | cons c t => exact ⟨c, t, rfl⟩
        have hcd : isDigitChar c = true := hdig c (by rw [hct]; simp)
        have h1 : dumpV ind (.jnum n) ++ rest = c :: (t ++ rest) := by
          simp [dumpV, intChars, hneg, hct]
        rw [h1, parseV_numhead f c _ (Or.inl hcd), ← h1]
        simpa [dumpV] using parseNum_intChars n rest hr
  | .jstr s, ind, fuel, rest, hf, hr => by
      obtain ⟨f, rfl⟩ : ∃ f, fuel = f + 1 := ⟨fuel - 1, by simp [fuelV] at hf; omega⟩
      have h1 : dumpV ind (.jstr s) ++ rest =
          '"' :: (encChars s.toList ++ ('"' :: rest)) := by
        simp [dumpV, encStr]
      rw [h1, parseV_quote, parseStrBody_enc]
      simp
  | .jarr [], ind, fuel, rest, hf, hr => by
      obtain ⟨f, rfl⟩ : ∃ f, fuel = f + 1 :=
        ⟨fuel - 1, by simp [fuelV, fuelArr] at hf; omega⟩
      obtain ⟨g, rfl⟩ : ∃ g, f = g + 1 :=
        ⟨f - 1, by simp [fuelV, fuelArr] at hf; omega⟩
      have h1 : dumpV ind (.jarr []) ++ rest = '[' :: (']' :: rest) := by simp [dumpV]
      rw [h1, parseV_lbrack]
      simp [parseArr, skipWs_cons_not _ _ (by decide : isWsChar ']' = false)]
  | .jarr (x :: xs), ind, fuel, rest, hf, hr => by
      have hfv : 3 + fuelV x + fuelArr xs ≤ fuel := by
        simp [fuelV, fuelArr] at hf; omega
      obtain ⟨f, rfl⟩ : ∃ f, fuel = f + 1 := ⟨fuel - 1, by omega⟩
      obtain ⟨g, rfl⟩ : ∃ g, f = g + 1 := ⟨f - 1, by omega⟩
      obtain ⟨c, t, hct, hcw, hcrb⟩ := dumpV_head (ind + 2) x
      have h1 : dumpV ind (.jarr (x :: xs)) ++ rest =
          '[' :: (nlInd (ind + 2) ++ (dumpV (ind + 2) x ++
            (dumpArr (ind + 2) xs ++ (nlInd ind ++ (']' :: rest))))) := by
        simp [dumpV]
      rw [h1, parseV_lbrack, parseArr_ws _ _ _ (nlInd_ws _)]
      have h2 : dumpV (ind + 2) x ++
          (dumpArr (ind + 2) xs ++ (nlInd ind ++ (']' :: rest)))
          = c :: (t ++ (dumpArr (ind + 2) xs ++ (nlInd ind ++ (']' :: rest)))) := by
        rw [hct]; simp
      rw [h2, parseArr_step _ _ _ hcw hcrb, ← h2]
      rw [parseV_dump x (ind + 2) g _ (by omega) (headFails_dumpArr _ _ _ _)]
      simp [parseArrRest_dump xs (ind + 2) ind g rest (by omega)]
  | .jobj [], ind, fuel, rest, hf, hr => by
      obtain ⟨f, rfl⟩ : ∃ f, fuel = f + 1 :=
        ⟨fuel - 1, by simp [fuelV, fuelObj] at hf; omega⟩
      obtain ⟨g, rfl⟩ : ∃ g, f = g + 1 :=
        ⟨f - 1, by simp [fuelV, fuelObj] at hf; omega⟩
      have h1 : dumpV ind (.jobj []) ++ rest =
          Char.ofNat 123 :: (Char.ofNat 125 :: rest) := by simp [dumpV]
      rw [h1, parseV_lbrace, parseObj_close]
  | .jobj ((k, v) :: fs), ind, fuel, rest, hf, hr => by
      have hfv : 4 + fuelV v + fuelObj fs ≤ fuel := by
        simp [fuelV, fuelObj] at hf; omega
      obtain ⟨f, rfl⟩ : ∃ f, fuel = f + 1 := ⟨fuel - 1, by omega⟩
      obtain ⟨g, rfl⟩ : ∃ g, f = g + 1 := ⟨f - 1, by omega⟩
      obtain ⟨g2, rfl⟩ : ∃ g2, g = g2 + 1 := ⟨g - 1, by omega⟩
      have h1 : dumpV ind (.jobj ((k, v) :: fs)) ++ rest =
          Char.ofNat 123 :: (nlInd (ind + 2) ++ (dumpField (ind + 2) (k, v) ++
            (dumpObj (ind + 2) fs ++ (nlInd ind ++ (Char.ofNat 125 :: rest))))) := by
        simp [dumpV]
      rw [h1, parseV_lbrace, parseObj_ws _ _ _ (nlInd_ws _)]
      have h2 : dumpField (ind + 2) (k, v) ++
          (dumpObj (ind + 2) fs ++ (nlInd ind ++ (Char.ofNat 125 :: rest)))
          = '"' :: (encChars k.toList ++ ('"' :: (':' :: (' ' ::
              (dumpV (ind + 2) v ++ (dumpObj (ind + 2) fs ++
                (nlInd ind ++ (Char.ofNat 125 :: rest)))))))) := by
        simp [dumpField, encStr]
      rw [h2, parseObj_field _ _ _ (by decide) (by decide), ← h2]
      rw [parseField_of_parseV k v (ind + 2) g2 _ (by omega)
        (parseV_dump v (ind + 2) g2 _ (by omega) (headFails_dumpObj _ _ _ _))]
      simp [parseObjRest_dump fs (ind + 2) ind (g2 + 1) rest (by omega)]

theorem parseArrRest_dump : ∀ (xs : List JValue) (ind ind2 fuel : Nat) (rest : List Char),
    1 + fuelArr xs ≤ fuel →
    parseArrRest fuel (dumpArr ind xs ++ (nlInd ind2 ++ (']' :: rest))) = some (xs, rest)
  | [], ind, ind2, fuel, rest, hf => by
      obtain ⟨f, rfl⟩ : ∃ f, fuel = f + 1 := ⟨fuel - 1, by omega⟩
      have h1 : dumpArr ind [] ++ (nlInd ind2 ++ (']' :: rest)) =
          nlInd ind2 ++ (']' :: rest) := by simp [dumpArr]
      rw [h1, parseArrRest_ws _ _ _ (nlInd_ws _), parseArrRest_close]
  | x :: xs, ind, ind2, fuel, rest, hf => by
      have hfv : 2 + fuelV x + fuelArr xs ≤ fuel := by simp [fuelArr] at hf; omega
      obtain ⟨f, rfl⟩ : ∃ f, fuel = f + 1 := ⟨fuel - 1, by omega⟩
      obtain ⟨g, rfl⟩ : ∃ g, f = g + 1 := ⟨f - 1, by omega⟩
      have h1 : dumpArr ind (x :: xs) ++ (nlInd ind2 ++ (']' :: rest)) =
          ',' :: (nlInd ind ++ (dumpV ind x ++
            (dumpArr ind xs ++ (nlInd ind2 ++ (']' :: rest))))) := by
        simp [dumpArr]
      rw [h1, parseArrRest_comma, parseV_ws g _ _ (nlInd_ws _)]
      rw [parseV_dump x ind (g + 1) _ (by omega) (headFails_dumpArr _ _ _ _)]
      simp [parseArrRest_dump xs ind ind2 (g + 1) rest (by omega)]

theorem parseObjRest_dump :
    ∀ (fs : List (String × JValue)) (ind ind2 fuel : Nat) (rest : List Char),
    1 + fuelObj fs ≤ fuel →
    parseObjRest fuel (dumpObj ind fs ++ (nlInd ind2 ++ (Char.ofNat 125 :: rest))) =
      some (fs, rest)
  | [], ind, ind2, fuel, rest, hf => by
      obtain ⟨f, rfl⟩ : ∃ f, fuel = f + 1 := ⟨fuel - 1, by omega⟩
      have h1 : dumpObj ind [] ++ (nlInd ind2 ++ (Char.ofNat 125 :: rest)) =
          nlInd ind2 ++ (Char.ofNat 125 :: rest) := by simp [dumpObj]
      rw [h1, parseObjRest_ws _ _ _ (nlInd_ws _), parseObjRest_close]
  | (k, v) :: fs, ind, ind2, fuel, rest, hf => by
      have hfv : 3 + fuelV v + fuelObj fs ≤ fuel := by simp [fuelObj] at hf; omega
      obtain ⟨f, rfl⟩ : ∃ f, fuel = f + 1 := ⟨fuel - 1, by omega⟩
      obtain ⟨g, rfl⟩ : ∃ g, f = g + 1 := ⟨f - 1, by omega⟩
      have h1 : dumpObj ind ((k, v) :: fs) ++ (nlInd ind2 ++ (Char.ofNat 125 :: rest)) =
          ',' :: (nlInd ind ++ (dumpField ind (k, v) ++
            (dumpObj ind fs ++ (nlInd ind2 ++ (Char.ofNat 125 :: rest))))) := by
        simp [dumpObj]
      rw [h1, parseObjRest_comma, parseField_ws g _ _ (nlInd_ws _)]
      rw [parseField_of_parseV k v ind g _ (by omega)
        (parseV_dump v ind g _ (by omega) (headFails_dumpObj _ _ _ _))]
      simp [parseObjRest_dump fs ind ind2 (g + 1) rest (by omega)]

end




mutual

theorem fuelV_le : ∀ (v : JValue) (ind : Nat), fuelV v ≤ (dumpV ind v).length + 1
  | .jnull, ind => by simp [fuelV, dumpV]
  | .jbool b, ind => by cases b <;> simp [fuelV, dumpV]
  | .jnum n, ind => by simp [fuelV]
  | .jstr s, ind => by simp [fuelV]
  | .jarr [], ind => by simp [fuelV, fuelArr, dumpV]
  | .jarr (x :: xs), ind => by
      have h1 := fuelV_le x (ind + 2)
      have h2 := fuelArr_le xs (ind + 2)
      simp only [fuelV, fuelArr, dumpV, List.length_cons, List.length_append,
        nlInd, List.length_replicate] at h1 h2 ⊢
      omega
  | .jobj [], ind => by simp [fuelV, fuelObj, dumpV]
  | .jobj ((k, v) :: fs), ind => by
      have h1 := fuelV_le v (ind + 2)
      have h2 := fuelObj_le fs (ind + 2)
      simp only [fuelV, fuelObj, dumpV, dumpField, encStr, List.length_cons,
        List.length_append, nlInd, List.length_replicate] at h1 h2 ⊢
      omega

theorem fuelArr_le : ∀ (xs : List JValue) (ind : Nat), fuelArr xs ≤ (dumpArr ind xs).length
  | [], ind => by simp [fuelArr, dumpArr]
  | x :: xs, ind => by
      have h1 := fuelV_le x ind
      have h2 := fuelArr_le xs ind
      simp only [fuelArr, dumpArr, List.length_cons, List.length_append,
        nlInd, List.length_replicate] at h1 h2 ⊢
      omega

theorem fuelObj_le :
    ∀ (fs : List (String × JValue)) (ind : Nat), fuelObj fs ≤ (dumpObj ind fs).length
  | [], ind => by simp [fuelObj, dumpObj]
  | (k, v) :: fs, ind => by
      have h1 := fuelV_le v ind
      have h2 := fuelObj_le fs ind
      simp only [fuelObj, dumpObj, dumpField, encStr, List.length_cons,
        List.length_append, nlInd, List.length_replicate] at h1 h2 ⊢
      omega

end

/-- The central serialisation fact: reading back a dumped JSON document
reproduces the value exactly. -/
theorem parseJson_dumpJson (v : JValue) : parseJson (dumpJson v) = some v := by
  unfold parseJson dumpJson
  have htl : (String.mk (dumpV 0 v)).toList = dumpV 0 v := rfl
  rw [htl]
  have hb : fuelV v ≤ (dumpV 0 v).length + 1 := fuelV_le v 0
  have hp := parseV_dump v 0 ((dumpV 0 v).length + 1) [] hb (by rfl)
  rw [List.append_nil] at hp
  rw [hp]
  simp [skipWs]




/-! ### Helper lemmas for the claim analyses -/

theorem lookup_species (el : Node) :
    (extract_sighting_data el).lookup "species" = some (.jstr (speciesField el)) := by
  simp [extract_sighting_data, List.lookup]

theorem lookup_checklist (el : Node) :
    (extract_sighting_data el).lookup "checklist_url" =
      some (.jstr (checklistField el)) := by
  simp [extract_sighting_data, List.lookup]

theorem mkGenericSighting_shape (fields : List (String × JValue)) :
    sightingShape (mkGenericSighting fields) :=
  ⟨rfl, rfl, rfl⟩

theorem processItems_shape : ∀ (items : List JValue) (l : List Sighting),
    processItems items = .ok l → ∀ r ∈ l, sightingShape r := by
  intro items
  induction items with
  | nil =>
      intro l h r hr
      injection h with h
      subst h
      simp at hr
  | cons x rest ih =>
      intro l h r hr
      cases x with
      | jobj fields =>
          simp only [processItems] at h
          by_cases hn : (fields.map Prod.fst).contains "name"
          · rw [if_pos hn] at h
            cases hrec : processItems rest with
            | error e => rw [hrec] at h; cases h
            | ok l2 =>
                rw [hrec] at h
                injection h with h
                subst h
                rcases List.mem_cons.mp hr with rfl | hr2
                · exact mkGenericSighting_shape fields
                · exact ih l2 hrec r hr2
          · rw [if_neg hn] at h
            exact ih l h r hr
      | jstr s =>
          simp only [processItems] at h
          by_cases hn : pyIn "name" s
          · rw [if_pos hn] at h
            injection h with h
            subst h
            simp at hr
          · rw [if_neg hn] at h
            exact ih l h r hr
      | jarr xs =>
          simp only [processItems] at h
          by_cases hn : xs.contains (JValue.jstr "name")
          · rw [if_pos hn] at h
            injection h with h
            subst h
            simp at hr
          · rw [if_neg hn] at h
            exact ih l h r hr
      | jnull => simp [processItems] at h
      | jbool b => simp [processItems] at h
      | jnum n => simp [processItems] at h

theorem processBlock_shape (jp : String → Option JValue) (blk : Node)
    (l : List Sighting) (h : processBlock jp blk = .ok l) :
    ∀ r ∈ l, sightingShape r := by
  cases hsp : blk.strProp with
  | none => simp only [processBlock, hsp] at h; cases h
  | some s =>
      simp only [processBlock, hsp] at h
      cases hjp : jp s with
      | none =>
          simp only [hjp] at h
          injection h with h
          subst h
          simp
      | some v =>
          simp only [hjp] at h
          cases v with
          | jarr items => exact processItems_shape items l h
          | jnull => injection h with h; subst h; simp
          | jbool b => injection h with h; subst h; simp
          | jnum n => injection h with h; subst h; simp
          | jstr s2 => injection h with h; subst h; simp
          | jobj fs => injection h with h; subst h; simp

theorem processBlocks_shape : ∀ (jp : String → Option JValue) (bs : List Node)
    (l : List Sighting), processBlocks jp bs = .ok l → ∀ r ∈ l, sightingShape r := by
  intro jp bs
  induction bs with
  | nil =>
      intro l h r hr
      injection h with h
      subst h
      simp at hr
  | cons b rest ih =>
      intro l h r hr
      simp only [processBlocks] at h
      cases hb : processBlock jp b with
      | error e => rw [hb] at h; cases h
      | ok l1 =>
          rw [hb] at h
          cases hrest : processBlocks jp rest with
          | error e => rw [hrest] at h; cases h
          | ok l2 =>
              rw [hrest] at h
              injection h with h
              subst h
              rcases List.mem_append.mp hr with h1 | h2
              · exact processBlock_shape jp b l1 hb r h1
              · exact ih l2 hrest r h2



/-! ### The claim analyses -/

/-- C1 (amended): every sighting retained by the fragment path has a
non-empty species string, and whenever the fragment path retains at least one
record the pipeline output is exactly that list, so every output record has a
non-empty species.  Records supplied by the stage-6 structured-data fallback
bypass this filter (see the counterexample). -/
theorem c1_fragment_species_nonempty (jp : String → Option JValue)
    (soup : Node) (ss : List Sighting)
    (hk : (keptSightings soup).isEmpty = false)
    (h : parse_alerts jp soup = .ok ss) :
    ∀ s ∈ ss, ∃ sp : String, s.lookup "species" = some (.jstr sp) ∧ sp ≠ "" := by
  have hss : keptSightings soup = ss := by
    have h2 : parse_alerts jp soup = .ok (keptSightings soup) := by
      simp [parse_alerts, hk]
    rw [h2] at h
    injection h
  intro s hs
  rw [← hss] at hs
  simp only [keptSightings, List.mem_filterMap] at hs
  obtain ⟨row, hrow, hif⟩ := hs
  by_cases hc : (!(extract_sighting_data row).isEmpty &&
      pyTruthy (pyDictGet (extract_sighting_data row) "species")) = true
  · rw [if_pos hc] at hif
    injection hif with hif
    subst hif
    refine ⟨speciesField row, lookup_species row, ?_⟩
    have ht := (Bool.and_eq_true _ _).mp hc |>.2
    rw [pyDictGet, lookup_species row] at ht
    simpa [pyTruthy] using ht
  · rw [if_neg hc] at hif
    cases hif

/-- C1 witness: at the well-behaved page the retained record's species is a
non-empty string. -/
theorem c1_witness :
    ∃ sp : String, recW.lookup "species" = some (.jstr sp) ∧ sp ≠ "" :=
  c1_fragment_species_nonempty parseJson docW [recW] rfl rfl recW (List.Mem.head _)

/-- C1 counterexample: with no usable fragments and the structured-data block
`[{"name": ""}]`, the final output of parse_alerts contains a sighting whose
species is the empty string — the fallback applies no species filter. -/
theorem c1_counterexample :
    parse_alerts parseJson docC1 =
      .ok [[("species", .jstr ""), ("location", .jstr ""), ("date", .jstr ""),
            ("observer", .jstr ""), ("checklist_url", .jstr ""), ("count", .jstr "")]] ∧
    pyTruthy (.jstr "") = false :=
  ⟨rfl, rfl⟩

/-- C2 (amended): when stage 2 yields at least one candidate, stages 3–5 do
not run — the candidate list is exactly the stage-2 result; but stage 6 is
gated on the retained sighting list being empty, not on the earlier stages
having produced zero candidates, so it can still run and contribute records
(see the counterexample).  When at least one sighting is retained, the output
is exactly the retained list and stage 6 contributes nothing. -/
theorem c2_first_match_cascade (jp : String → Option JValue) (soup : Node)
    (h2 : (stage2Rows soup).isEmpty = false) :
    obsRows soup = stage2Rows soup ∧
      ((keptSightings soup).isEmpty = false →
        parse_alerts jp soup = .ok (keptSightings soup)) := by
  constructor
  · simp [obsRows, h2]
  · intro hk
    simp [parse_alerts, hk]

/-- C2 witness: on the well-behaved page stage 2 matches and the output is
the retained fragment sightings. -/
theorem c2_witness :
    obsRows docW = stage2Rows docW ∧
    parse_alerts parseJson docW = .ok (keptSightings docW) :=
  ⟨(c2_first_match_cascade parseJson docW rfl).1,
   (c2_first_match_cascade parseJson docW rfl).2 rfl⟩

/-- C2 counterexample: stage 2 yields a candidate (so stages 3–5 are skipped),
yet the candidate is dropped by the species filter and stage 6 runs anyway,
contributing the output sighting — the cascade is not strictly first-match
with respect to stage 6. -/
theorem c2_counterexample :
    stage2Rows docC2 =
      [.elem "div" [("class", "obs-row")] [.text "no species markup here"]] ∧
    keptSightings docC2 = [] ∧
    extract_sightings_generic parseJson docC2 =
      .ok [[("species", .jstr "Hermit Thrush"), ("location", .jstr ""),
            ("date", .jstr ""), ("observer", .jstr ""),
            ("checklist_url", .jstr ""), ("count", .jstr "")]] ∧
    parse_alerts parseJson docC2 =
      .ok [[("species", .jstr "Hermit Thrush"), ("location", .jstr ""),
            ("date", .jstr ""), ("observer", .jstr ""),
            ("checklist_url", .jstr ""), ("count", .jstr "")]] :=
  ⟨rfl, rfl, rfl, rfl⟩

/-- C3 (amended): the missing-credential exit (before any network access:
the result is `.error .noCookies` for every network `net`) happens exactly
when the cookie string is unset or empty.  Any non-empty string passes the
gate — even one that yields zero name→value pairs — and the cookie loader
returns its parsed pairs. -/
theorem c3_cookie_gate (env : Option String) (net : List (String × String) → Resp)
    (bs : String → Node) (jp : String → Option JValue) (ts : String) :
    (env.getD "" = "" → runMain env net bs jp ts = .error .noCookies) ∧
    (env.getD "" ≠ "" →
      get_cookies_from_env env = .ok (parseCookieString (env.getD ""))) := by
  constructor
  · intro h
    simp [runMain, get_cookies_from_env, h, Except.mapError, Bind.bind, Except.bind]
  · intro h
    simp [get_cookies_from_env, h]

/-- C3 witness: an unset environment exits with the credential diagnostic for
any network; a set string is parsed into its pairs. -/
theorem c3_witness :
    runMain none netProbe bs0 parseJson "ts" = .error .noCookies ∧
    get_cookies_from_env (some "sid=abc; u=1") =
      .ok (parseCookieString "sid=abc; u=1") :=
  ⟨(c3_cookie_gate none netProbe bs0 parseJson "ts").1 rfl,
   (c3_cookie_gate (some "sid=abc; u=1") netProbe bs0 parseJson "ts").2 (by decide)⟩

/-- C3 counterexample: `EBIRD_COOKIES="abc"` yields zero name→value pairs,
yet the program does not exit: the Fetcher is invoked with the empty cookie
mapping.  (The probe network answers 500 exactly to an empty mapping, and
that is the failure the run reports, so the network was accessed.) -/
theorem c3_counterexample :
    get_cookies_from_env (some "abc") = .ok [] ∧
    runMain (some "abc") netProbe bs0 parseJson "ts" =
      .error (.fetchFail ["ERROR: Failed to fetch alerts. Status code: 500"]) :=
  ⟨rfl, rfl⟩

/-- C4 (amended): a non-200 final response is fatal — the fetch yields no
markup and reports the status code; the authentication-expiry diagnostic is
printed exactly when the final URL additionally contains "login"
(case-insensitively).  A redirect that ends 200 on a login page is not
detected (counterexample). -/
theorem c4_fetch_failure (resp : Resp) :
    (resp.status = 200 → fetch_alerts resp = .ok resp.text) ∧
    (resp.status ≠ 200 →
      exceptIsOk (fetch_alerts resp) = false ∧
      errMsgs (fetch_alerts resp) =
        [statusLine resp] ++
          (if pyIn "login" (pyLower resp.url) = true then [loginLine] else [])) := by
  constructor
  · intro h
    simp [fetch_alerts, h]
  · intro h
    constructor
    · simp [fetch_alerts, h, exceptIsOk]
    · simp [fetch_alerts, h, errMsgs]

/-- C4 witness: a 302 whose final URL contains "LOGIN" fails with both the
status line and the expiry diagnostic. -/
theorem c4_witness :
    exceptIsOk (fetch_alerts ⟨302, "https://ebird.org/home/LOGIN", ""⟩) = false ∧
    errMsgs (fetch_alerts ⟨302, "https://ebird.org/home/LOGIN", ""⟩) =
      [statusLine ⟨302, "https://ebird.org/home/LOGIN", ""⟩] ++
        (if pyIn "login" (pyLower "https://ebird.org/home/LOGIN") = true
         then [loginLine] else []) :=
  (c4_fetch_failure ⟨302, "https://ebird.org/home/LOGIN", ""⟩).2 (by decide)

/-- C4 counterexample: redirected to a login page that answers 200 — the
program prints no diagnostic, does not exit, and happily treats the login
page body as the alerts markup. -/
theorem c4_counterexample :
    fetch_alerts ⟨200, "https://ebird.org/home/login", "LOGIN PAGE"⟩ = .ok "LOGIN PAGE" ∧
    pyIn "login" (pyLower "https://ebird.org/home/login") = true :=
  ⟨rfl, rfl⟩

/-- C5 (amended): the species sub-cascade is first-match with *tag priority*:
the first `a` with a species class, else the first `span` with a species
class, else the first `strong`, else the first `b`; when nothing matches the
species stays empty.  (The claim's document-order reading of each group is
refuted by the counterexample.) -/
theorem c5_species_cascade (el : Node) :
    speciesField el = amendedSpeciesText el := by
  unfold speciesField speciesElem amendedSpeciesText pyOrN Node.findFirst
  cases (el.findAll (fun n => n.tag = "a" && classLowerHas "species" n)).head? <;>
    cases (el.findAll (fun n => n.tag = "span" && classLowerHas "species" n)).head? <;>
      cases (el.findAll (fun n => n.tag = "strong")).head? <;>
        cases (el.findAll (fun n => n.tag = "b")).head? <;> rfl

/-- C5 counterexample: in `<b>Boldy</b><strong>Strongy</strong>` the first
bold/strong-emphasis element in document order is the `b`, whose text is
"Boldy"; the code extracts "Strongy" because `strong` outranks `b`. -/
theorem c5_counterexample :
    (extract_sighting_data exC5).lookup "species" = some (.jstr "Strongy") ∧
    specSpeciesText exC5 = "Boldy" ∧
    ("Strongy" : String) ≠ "Boldy" :=
  ⟨rfl, rfl, by decide⟩

/-- C6: the checklist_url field behaves exactly as specified: the first link
whose href contains the checklist segment contributes its href, rewritten to
`https://ebird.org`-absolute form when root-relative and passed through
unchanged otherwise; fragments without such a link get the empty string. -/
theorem c6_checklist_url (el : Node) :
    (extract_sighting_data el).lookup "checklist_url" =
      some (.jstr (specChecklistUrl el)) := by
  have h : checklistField el = specChecklistUrl el := rfl
  rw [lookup_checklist, h]

/-- C7: parsing the emitted data.json text reproduces the report value
exactly; its "sightings" entry is the extracted sequence itself (same field
values, same order) and its "count" entry is the sequence's length. -/
theorem c7_json_roundtrip (ts : String) (ss : List Sighting) :
    parseJson (dumpJson (generate_output_data ts ss)) =
      some (generate_output_data ts ss) ∧
    jGet (generate_output_data ts ss) "sightings" = some (.jarr (ss.map .jobj)) ∧
    jGet (generate_output_data ts ss) "count" = some (.jnum ss.length) :=
  ⟨parseJson_dumpJson _, rfl, rfl⟩

/-- C8: a linked-data block whose payload text is present but not valid JSON
is skipped and its neighbours still processed (first conjunct); but a block
with no payload at all (`<script type="application/ld+json"></script>`) makes
`json.loads(None)` raise a `TypeError` that the per-block handler does not
catch, aborting the whole run (second conjunct) — the code contradicts its
own per-block skip handler. -/
theorem c8_malformed_block_behaviour :
    extract_sightings_generic parseJson docC8skip = .ok [recA, recB] ∧
    extract_sightings_generic parseJson docC8crash = .error .typeError :=
  ⟨rfl, rfl⟩

/-- C9 (amended): every record from either extraction path is a dict with
exactly the six keys in insertion order species, location, date, observer,
checklist_url, count; the fragment path maps every key to a string; stage-6
records always map observer and count to the empty string, but their other
values are the raw JSON values of the structured data, which need not be
strings (counterexample). -/
theorem c9_record_shape :
    (∀ el : Node, (extract_sighting_data el).map Prod.fst = sightingKeys ∧
        ∀ p ∈ extract_sighting_data el, JValue.isStr p.2 = true) ∧
    (∀ (jp : String → Option JValue) (soup : Node) (ss : List Sighting),
        extract_sightings_generic jp soup = .ok ss → ∀ r ∈ ss, sightingShape r) := by
  constructor
  · intro el
    constructor
    · rfl
    · intro p hp
      simp only [extract_sighting_data, List.mem_cons, List.not_mem_nil,
        or_false] at hp
      rcases hp with rfl | rfl | rfl | rfl | rfl | rfl <;> rfl
  · intro jp soup ss h r hr
    exact processBlocks_shape jp (ldJsonBlocks soup) ss h r hr

/-- C9 witness: the shape facts at a concrete fragment and a concrete
stage-6 record. -/
theorem c9_witness :
    ((extract_sighting_data exC5).map Prod.fst = sightingKeys ∧
      ∀ p ∈ extract_sighting_data exC5, JValue.isStr p.2 = true) ∧
    sightingShape recA :=
  ⟨c9_record_shape.1 exC5,
   c9_record_shape.2 parseJson docC8skip [recA, recB] rfl recA (List.Mem.head _)⟩

/-- C9 counterexample: `[{"name": 5}]` produces a stage-6 record whose
species value is the JSON number 5, not a string. -/
theorem c9_counterexample :
    extract_sightings_generic parseJson docC9 =
      .ok [[("species", .jnum 5), ("location", .jstr ""), ("date", .jstr ""),
            ("observer", .jstr ""), ("checklist_url", .jstr ""), ("count", .jstr "")]] ∧
    JValue.isStr (.jnum 5) = false :=
  ⟨rfl, rfl⟩

/-- C10: extraction is deterministic — the embedding of parse_alerts is a
pure function of the markup (and of the fixed, deterministic HTML parser and
JSON reader), mirroring a source function that reads no ambient state, uses
no randomness, and shares nothing across invocations: equal inputs give
equal sighting sequences. -/
theorem c10_deterministic (bs : String → Node) (jp : String → Option JValue)
    (html1 html2 : String) (h : html1 = html2) :
    parse_alerts_html bs jp html1 = parse_alerts_html bs jp html2 := by
  rw [h]

/-- C10 witness: two runs on the same markup agree. -/
theorem c10_witness :
    parse_alerts_html bsW parseJson "<page>" = parse_alerts_html bsW parseJson "<page>" :=
  c10_deterministic bsW parseJson "<page>" "<page>" rfl


end Scraper
